import Mathlib

/-!
Verification of the text-video repository: a shallow embedding of the ASCII
conversion pipeline (src/video_to_ascii/converter.py) and of the terminal
playback engine (src/video_to_ascii/player.py), with theorems settling the
frozen claims about them.

Conventions: Python floats are modelled by exact rationals; Python int()
applied to a non-negative value is the floor. The numpy grayscale array has
dtype uint8, so arithmetic on it wraps modulo 256. External library calls
(PIL resampling, the OS terminal size queries, the wall clock) are modelled
as explicit parameters of the embedded functions.
-/

namespace VideoToAscii

/-- Python int() applied to a rational: truncation toward zero. -/
def pyInt (q : ℚ) : ℤ := if q < 0 then -(Int.floor (-q)) else Int.floor q

/-- AsciiConverter.DEFAULT_CHARSET (converter.py line 11). -/
def DEFAULT_CHARSET : String := " .:-=+*#%@"

/-- AsciiConverter.__init__ (converter.py line 20):
self.charset = charset or self.DEFAULT_CHARSET.  Python `or` yields the
right operand when the left is falsy, i.e. None or the empty string. -/
def initCharset (charset : Option String) : String :=
  match charset with
  | none => DEFAULT_CHARSET
  | some s => if s = "" then DEFAULT_CHARSET else s

/-- The index computation of AsciiConverter._pixel_to_char (converter.py
lines 75-76): char_index = int(gray_value / 256 * len(self.charset)),
then char_index = min(char_index, len(self.charset) - 1). -/
def pixel_to_char_index (charset : String) (grayValue : ℚ) : ℤ :=
  min (pyInt (grayValue / 256 * (charset.length : ℚ))) ((charset.length : ℤ) - 1)

/-- AsciiConverter._pixel_to_char (converter.py line 77):
return self.charset[char_index].  The index is non-negative and in range at
every reachable call, so the lookup is a plain list access. -/
def pixel_to_char (charset : String) (grayValue : ℚ) : Char :=
  charset.toList.getD (pixel_to_char_index charset grayValue).toNat ' '

/-- One sample of the contrast step of convert_frame / convert_image
(converter.py lines 54-56 and 104-106):
pixels = ((pixels - 128) * self.contrast + 128); pixels = np.clip(pixels, 0, 255),
executed only when self.contrast != 1.0.  `pixels` is the numpy array of the
grayscale image and has dtype uint8, so the subtraction pixels - 128 is
performed in uint8 and wraps modulo 256 (p - 128 mod 256 = (p + 128) % 256);
the multiplication by the float contrast then promotes to float. -/
def applyContrast (contrast : ℚ) (p : ℕ) : ℚ :=
  if contrast = 1 then (p : ℚ)
  else max 0 (min ((((p + 128) % 256 : ℕ) : ℚ) * contrast + 128) 255)

/-- Modelled from the spec (section 4.1, step 4), for comparison with the
code: adjusted = clamp((luma - 128) * contrast + 128, 0, 255), with the
subtraction of the 128 midpoint taken in ordinary signed arithmetic. -/
def contrastSpecFormula (contrast : ℚ) (luma : ℚ) : ℚ :=
  max 0 (min ((luma - 128) * contrast + 128) 255)

/-- The target height computation shared by convert_frame (converter.py
lines 41-42) and convert_image (lines 93-94):
aspect = img.height / img.width; height = int(width * aspect * 0.5). -/
def target_height (imgW imgH width : ℕ) : ℕ :=
  (pyInt ((width : ℚ) * ((imgH : ℚ) / (imgW : ℚ)) * (1/2))).toNat

/-- AsciiConverter.convert_frame (converter.py lines 23-64).  The external
PIL resample pipeline (Image.resize with the LANCZOS filter followed by the
grayscale conversion) is abstracted as the argument `resample`, giving the
gray value of each cell of the target grid; the frame pixels enter only
through it.  The body performs no explicit validation; the failure points,
in source order, are: a zero-width image fails at the aspect division
(ZeroDivisionError, line 41); a zero target dimension fails inside PIL
resize, whose C implementation rejects a size below 1 with the ValueError
message modelled here.  The remaining steps are total: each of the `height`
rows of the contrast-adjusted grid is mapped through pixel_to_char and the
rows are joined by the newline separator. -/
def convert_frame (charset : String) (contrast : ℚ)
    (resample : ℕ → ℕ → ℕ) (imgW imgH : ℕ) (width : ℕ) :
    Except String String :=
  if imgW = 0 then .error "ZeroDivisionError"
  else
    let height := target_height imgW imgH width
    if width = 0 ∨ height = 0 then .error "height and width must be > 0"
    else
      let rows := (List.range height).map (fun r =>
        String.mk ((List.range width).map (fun c =>
          pixel_to_char charset (applyContrast contrast (resample r c)))))
      .ok (String.intercalate "\n" rows)

/-- TerminalPlayer.calculate_frame_size (player.py lines 86-118), with the
terminal size it samples passed in as (termW, termH):
width = int(terminal_width * 0.7); aspect = video_height / video_width;
height = int(width * aspect * 0.5); max_height = int(terminal_height * 0.9);
if height > max_height: height = max_height; width = int(height / (aspect * 0.5));
width = max(width, 20); height = max(height, 10). -/
def calculate_frame_size (termW termH vidW vidH : ℕ) : ℕ × ℕ :=
  let width := (pyInt ((termW : ℚ) * (7/10))).toNat
  let aspect : ℚ := (vidH : ℚ) / (vidW : ℚ)
  let height := (pyInt ((width : ℚ) * aspect * (1/2))).toNat
  let maxHeight := (pyInt ((termH : ℚ) * (9/10))).toNat
  let wh :=
    if maxHeight < height then
      ((pyInt ((maxHeight : ℚ) / (aspect * (1/2)))).toNat, maxHeight)
    else (width, height)
  (max wh.1 20, max wh.2 10)

/-- The inner get_size helper of TerminalPlayer._update_terminal_size
(player.py lines 46-63): try the external command `stty size`, whose output
parses as (rows, cols); on an exception or an output that does not split
into exactly two fields, try `tput lines && tput cols`, parsed as
(lines, cols); if that also yields nothing, return None.  Each argument is
`some (r, c)` when the corresponding command produced two integers and
`none` otherwise. -/
def get_size (stty tput : Option (ℕ × ℕ)) : Option (ℕ × ℕ) :=
  match stty with
  | some rc => some rc
  | none => tput

/-- TerminalPlayer._update_terminal_size (player.py lines 28-67) acting on
the stored (terminal_width, terminal_height) pair (w, h).  `shutilRes` is
the result of shutil.get_terminal_size(fallback=(80, 24)) as
(columns, lines), `none` when that call raised and the except clause left
the fields unchanged.  The first try block stores the shutil result; the
second block then calls get_size unconditionally and, whenever it returns a
result, overwrites both fields with it (the tuple is unpacked as
height, width = result). -/
def update_terminal_size (shutilRes : Option (ℕ × ℕ))
    (stty tput : Option (ℕ × ℕ)) (w h : ℕ) : ℕ × ℕ :=
  let wh1 := match shutilRes with
    | some cl => cl
    | none => (w, h)
  match get_size stty tput with
  | some rc => (rc.2, rc.1)
  | none => wh1

/-- The mutable state of a TerminalPlayer during playback: the stored
terminal_width / terminal_height fields, plus the position in the stream of
values that successive _update_terminal_size calls will produce. -/
structure PlayerState where
  terminal_width : ℕ
  terminal_height : ℕ
  nextSample : ℕ
deriving DecidableEq

/-- One call of self._update_terminal_size() during playback, modelled
against the stream `sizes` of (width, height) values the layered size query
returns: the k-th call overwrites the stored dimensions with `sizes k`. -/
def sampleSize (sizes : ℕ → ℕ × ℕ) (s : PlayerState) : PlayerState :=
  { terminal_width := (sizes s.nextSample).1
    terminal_height := (sizes s.nextSample).2
    nextSample := s.nextSample + 1 }

/-- Python str.split at the newline character, on the character list of the
string: the empty string yields one empty field, and each newline closes the
current field and opens a new one. -/
def splitNl : List Char → List (List Char)
  | [] => [[]]
  | c :: cs =>
    if c = '\n' then [] :: splitNl cs
    else
      match splitNl cs with
      | [] => [[c]]
      | l :: ls => (c :: l) :: ls

/-- Python frame.split(chr 10) as used by render_frame: the list of lines of
a frame string. -/
def splitLines (s : String) : List String :=
  (splitNl s.data).map (fun l => String.mk l)

/-- TerminalPlayer.render_frame (player.py lines 135-156): re-samples the
terminal size, defaults max_lines to terminal_height - 1 from that fresh
sample only when the caller passed None, splits the frame at newlines and
keeps the first max_lines lines, then rewrites the screen with them.
Returns the new state and the lines written. -/
def render_frame (sizes : ℕ → ℕ × ℕ) (s : PlayerState) (frame : String)
    (maxLines : Option ℕ) : PlayerState × List String :=
  let s' := sampleSize sizes s
  let m := match maxLines with
    | none => s'.terminal_height - 1
    | some m => m
  (s', (splitLines frame).take m)

/-- The body of the `while True` loop of TerminalPlayer.play (player.py
lines 171-185): render the frame at the current index with the max_lines
value computed before the loop, sleep one frame interval, advance, and on
reaching the end either wrap to zero (loop=true) or break.
`interruptAt = some k` means a KeyboardInterrupt fires during the
time.sleep of iteration k (0-based); the except KeyboardInterrupt handler
at line 187 absorbs it, so the run still produces a value, the Bool
recording whether the stop came from the interrupt handler.  A `none`
result marks fuel exhaustion, i.e. a run on which the loop has not yet
terminated (a looping playback with no interrupt never does).  The middle
component lists, in order, the line-lists actually written, one per
iteration. -/
def playAux (sizes : ℕ → ℕ × ℕ) (frames : List String) (loopFlag : Bool)
    (maxLines : ℕ) (interruptAt : Option ℕ) :
    ℕ → ℕ → ℕ → PlayerState → Option (PlayerState × List (List String) × Bool)
  | 0, _, _, _ => none
  | fuel + 1, iter, idx, s =>
    let r := render_frame sizes s (frames.getD idx "") (some maxLines)
    if interruptAt = some iter then some (r.1, [r.2], true)
    else if frames.length ≤ idx + 1 then
      if loopFlag then
        match playAux sizes frames loopFlag maxLines interruptAt fuel (iter + 1) 0 r.1 with
        | none => none
        | some (s2, outs, b) => some (s2, r.2 :: outs, b)
      else some (r.1, [r.2], false)
    else
      match playAux sizes frames loopFlag maxLines interruptAt fuel (iter + 1) (idx + 1) r.1 with
      | none => none
      | some (s2, outs, b) => some (s2, r.2 :: outs, b)

/-- TerminalPlayer.play (player.py lines 158-188): an empty frame list
prints a notice and returns with nothing rendered; otherwise the terminal
size is sampled once before the loop, max_lines = terminal_height - 1 is
computed from that single sample, and the loop passes this fixed value to
every render_frame call. -/
def play (sizes : ℕ → ℕ × ℕ) (s0 : PlayerState) (frames : List String)
    (loopFlag : Bool) (interruptAt : Option ℕ) (fuel : ℕ) :
    Option (PlayerState × List (List String) × Bool) :=
  if frames.length = 0 then some (s0, [], false)
  else
    let s1 := sampleSize sizes s0
    playAux sizes frames loopFlag (s1.terminal_height - 1) interruptAt fuel 0 0 s1

/-- The terminal-size stream used in the concrete playback runs below: the
sample taken at loop entry reports 24 rows, every later sample 5 rows. -/
def sizesC5 : ℕ → ℕ × ℕ := fun k => if k = 0 then (80, 24) else (80, 5)

/-- A frame of 30 lines, taller than either terminal size in sizesC5. -/
def frame30 : String := String.intercalate "\n" (List.replicate 30 "x")

/-- The terminal-size stream that always reports 80 columns and 24 rows. -/
def sizes8024 : ℕ → ℕ × ℕ := fun _ => (80, 24)

/-! ### Helper lemmas -/

theorem pyInt_of_nonneg (q : ℚ) (h : 0 ≤ q) : pyInt q = Int.floor q :=
  if_neg (not_lt.mpr h)

theorem pyInt_nonneg_eq (q : ℚ) (z : ℤ) (hz : 0 ≤ z) (h0 : (z : ℚ) ≤ q)
    (h1 : q < z + 1) : pyInt q = z := by
  have hq : (0 : ℚ) ≤ q := le_trans (by exact_mod_cast hz) h0
  rw [pyInt_of_nonneg q hq]
  exact Int.floor_eq_iff.mpr ⟨h0, h1⟩

theorem pyInt_toNat_eq (q : ℚ) (n : ℕ) (h0 : (n : ℚ) ≤ q) (h1 : q < n + 1) :
    (pyInt q).toNat = n := by
  have h : pyInt q = (n : ℤ) := by
    refine pyInt_nonneg_eq q n (Int.ofNat_nonneg n) ?_ ?_
    · exact_mod_cast h0
    · exact_mod_cast h1
  rw [h]
  exact Int.toNat_natCast n

/-! ### C1 -/

/-- C1: the claim states that the contrast step computes
clamp((luma - 128) * contrast + 128, 0, 255) with the 128 subtraction in
ordinary signed arithmetic, so that contrast 2.0 maps a sample of 0 to 0.
The grayscale array has dtype uint8, so the subtraction wraps modulo 256:
at luma 0 and contrast 2 the code computes clip(((0 - 128) mod 256) * 2 +
128) = clip(384) = 255, while the signed formula gives clamp(-128, 0, 255)
= 0.  The darkest sample is mapped to the brightest value. -/
theorem C1_contrast_step_wraps :
    applyContrast 2 0 = 255 ∧ contrastSpecFormula 2 0 = 0 ∧
    applyContrast 2 0 ≠ contrastSpecFormula 2 0 := by
  refine ⟨?_, ?_, ?_⟩ <;>
    norm_num [applyContrast, contrastSpecFormula, max_def, min_def]

/-! ### C2 -/

/-- C2 counterexample: for a 40x10 terminal and a 1920x1080 source, the
negotiated size is (28, 10): the height floor of 10 is applied after the
90-percent clamp, so the final height exceeds floor(0.9 * 10) = 9,
refuting the claimed bound height <= floor(0.9 * terminalRows). -/
theorem C2_counterexample :
    calculate_frame_size 40 10 1920 1080 = (28, 10) ∧
    Int.floor ((9 / 10 : ℚ) * 10) = 9 ∧
    ¬ (((calculate_frame_size 40 10 1920 1080).2 : ℤ)
        ≤ Int.floor ((9 / 10 : ℚ) * 10)) := by
  have hfs : calculate_frame_size 40 10 1920 1080 = (28, 10) := by
    have h1 : (pyInt (((40 : ℕ) : ℚ) * (7 / 10))).toNat = 28 :=
      pyInt_toNat_eq _ 28 (by norm_num) (by norm_num)
    have h3 : (pyInt (((10 : ℕ) : ℚ) * (9 / 10))).toNat = 9 :=
      pyInt_toNat_eq _ 9 (by norm_num) (by norm_num)
    simp only [calculate_frame_size, h1]
    have h2 : (pyInt (((28 : ℕ) : ℚ) * (((1080 : ℕ) : ℚ) / ((1920 : ℕ) : ℚ)) * (1 / 2))).toNat = 7 :=
      pyInt_toNat_eq _ 7 (by norm_num) (by norm_num)
    rw [h2, h3]
    norm_num
  have hfloor : Int.floor ((9 / 10 : ℚ) * 10) = 9 :=
    Int.floor_eq_iff.mpr ⟨by norm_num, by norm_num⟩
  refine ⟨hfs, hfloor, ?_⟩
  rw [hfs, hfloor]
  decide

/-- C2 amended: calculate_frame_size is deterministic in the sampled
terminal size and source dimensions, and its result always satisfies
width >= 20, height >= 10, and height <= max(floor(0.9 * terminalRows), 10):
the claimed ceiling floor(0.9 * terminalRows) holds whenever it is at least
10, but the minimum-height floor, applied last, wins below that. -/
theorem C2_amended_bounds (termW termH vidW vidH : ℕ)
    (h1 : 0 < termW) (h2 : 0 < termH) (h3 : 0 < vidW) (h4 : 0 < vidH) :
    calculate_frame_size termW termH vidW vidH
      = calculate_frame_size termW termH vidW vidH ∧
    20 ≤ (calculate_frame_size termW termH vidW vidH).1 ∧
    10 ≤ (calculate_frame_size termW termH vidW vidH).2 ∧
    (calculate_frame_size termW termH vidW vidH).2
      ≤ max (pyInt (((termH : ℕ) : ℚ) * (9 / 10))).toNat 10 := by
  refine ⟨rfl, ?_, ?_, ?_⟩
  · simp only [calculate_frame_size]
    split <;> exact le_max_right _ _
  · simp only [calculate_frame_size]
    split <;> exact le_max_right _ _
  · simp only [calculate_frame_size]
    split
    · exact max_le_max le_rfl le_rfl
    · rename_i hcond
      exact max_le_max (le_of_not_lt hcond) le_rfl

/-- Witness for C2_amended_bounds at terminal 100x30, source 1920x1080. -/
theorem C2_amended_bounds_witness :
    calculate_frame_size 100 30 1920 1080
      = calculate_frame_size 100 30 1920 1080 ∧
    20 ≤ (calculate_frame_size 100 30 1920 1080).1 ∧
    10 ≤ (calculate_frame_size 100 30 1920 1080).2 ∧
    (calculate_frame_size 100 30 1920 1080).2
      ≤ max (pyInt (((30 : ℕ) : ℚ) * (9 / 10))).toNat 10 :=
  C2_amended_bounds 100 30 1920 1080 (by decide) (by decide) (by decide) (by decide)

/-! ### C3 -/

/-- C3 counterexample: for a 1920x1080 image at target width 70 the code
computes int(70 * (1080/1920) * 0.5) = int(19.6875) = 19 output rows,
not round(19.6875) = 20 as claimed. -/
theorem C3_counterexample :
    target_height 1920 1080 70 = 19 ∧
    round (((70 : ℕ) : ℚ) * (((1080 : ℕ) : ℚ) / ((1920 : ℕ) : ℚ)) * (1 / 2)) = 20 ∧
    ((target_height 1920 1080 70 : ℤ)
      ≠ round (((70 : ℕ) : ℚ) * (((1080 : ℕ) : ℚ) / ((1920 : ℕ) : ℚ)) * (1 / 2))) := by
  have h19 : target_height 1920 1080 70 = 19 := by
    simp only [target_height]
    exact pyInt_toNat_eq _ 19 (by norm_num) (by norm_num)
  have h20 : round (((70 : ℕ) : ℚ) * (((1080 : ℕ) : ℚ) / ((1920 : ℕ) : ℚ)) * (1 / 2)) = 20 := by
    rw [round_eq]
    exact Int.floor_eq_iff.mpr ⟨by norm_num, by norm_num⟩
  refine ⟨h19, h20, ?_⟩
  rw [h19, h20]
  decide

/-- C3 amended: the output grid height is the floor (Python int()
truncation) of targetWidth * (imgH / imgW) * 0.5, characterized by the two
floor inequalities; for a 1920x1080 image at target width 70 this gives 19
output rows, not 20. -/
theorem C3_height_is_floor (imgW imgH width : ℕ) (h : 0 < imgW) :
    ((target_height imgW imgH width : ℚ)
        ≤ (width : ℚ) * ((imgH : ℚ) / (imgW : ℚ)) * (1 / 2) ∧
      (width : ℚ) * ((imgH : ℚ) / (imgW : ℚ)) * (1 / 2)
        < (target_height imgW imgH width : ℚ) + 1) ∧
    target_height 1920 1080 70 = 19 := by
  have hq : (0 : ℚ) ≤ (width : ℚ) * ((imgH : ℚ) / (imgW : ℚ)) * (1 / 2) := by
    have := Nat.cast_nonneg (α := ℚ) width
    have := Nat.cast_nonneg (α := ℚ) imgH
    have := Nat.cast_nonneg (α := ℚ) imgW
    positivity
  have h0 : (0 : ℤ) ≤ Int.floor ((width : ℚ) * ((imgH : ℚ) / (imgW : ℚ)) * (1 / 2)) :=
    Int.floor_nonneg.mpr hq
  have hcast : ((target_height imgW imgH width : ℕ) : ℚ)
      = ((Int.floor ((width : ℚ) * ((imgH : ℚ) / (imgW : ℚ)) * (1 / 2)) : ℤ) : ℚ) := by
    simp only [target_height, pyInt_of_nonneg _ hq]
    exact_mod_cast congrArg (fun z : ℤ => (z : ℚ)) (Int.toNat_of_nonneg h0)
  constructor
  · constructor
    · rw [hcast]; exact Int.floor_le _
    · rw [hcast]; exact Int.lt_floor_add_one _
  · simp only [target_height]
    exact pyInt_toNat_eq _ 19 (by norm_num) (by norm_num)

/-- Witness for C3_height_is_floor at the 1920x1080 image and width 70. -/
theorem C3_height_is_floor_witness :
    ((target_height 1920 1080 70 : ℚ)
        ≤ ((70 : ℕ) : ℚ) * (((1080 : ℕ) : ℚ) / ((1920 : ℕ) : ℚ)) * (1 / 2) ∧
      ((70 : ℕ) : ℚ) * (((1080 : ℕ) : ℚ) / ((1920 : ℕ) : ℚ)) * (1 / 2)
        < (target_height 1920 1080 70 : ℚ) + 1) ∧
    target_height 1920 1080 70 = 19 :=
  C3_height_is_floor 1920 1080 70 (by decide)

/-! ### C4 -/

/-- C4 counterexample: a 100x1 image with target width 10 satisfies
imageWidth >= 1, imageHeight >= 1 and targetWidth >= 1, yet convert_frame
fails: the computed target height int(10 * (1/100) * 0.5) = 0 makes the
resize step reject the zero-sized grid, refuting the claim that every such
input succeeds. -/
theorem C4_counterexample :
    convert_frame DEFAULT_CHARSET 1 (fun _ _ => 0) 100 1 10
      = Except.error "height and width must be > 0" := by
  have h : target_height 100 1 10 = 0 := by
    simp only [target_height]
    exact pyInt_toNat_eq _ 0 (by norm_num) (by norm_num)
  simp [convert_frame, h]

/-- C4 amended: convert_frame fails exactly when the image width is zero
(division by zero at the aspect computation), the target width is zero, or
the computed target height is zero (both rejected by the resize step); the
latter covers every zero-height image but also images of positive size
whose aspect makes the height truncate to zero.  On all other inputs it
succeeds.  No explicit validation is performed. -/
theorem C4_failure_iff (charset : String) (contrast : ℚ)
    (resample : ℕ → ℕ → ℕ) (imgW imgH width : ℕ) :
    (∃ e, convert_frame charset contrast resample imgW imgH width
        = Except.error e)
      ↔ imgW = 0 ∨ width = 0 ∨ target_height imgW imgH width = 0 := by
  simp only [convert_frame]
  split_ifs with hw hz
  · simp [hw]
  · constructor
    · intro _
      rcases hz with hz | hz
      · exact Or.inr (Or.inl hz)
      · exact Or.inr (Or.inr hz)
    · intro _; exact ⟨_, rfl⟩
  · constructor
    · rintro ⟨e, he⟩
      exact absurd he (by simp)
    · rintro (h | h | h)
      · exact absurd h hw
      · exact absurd (Or.inl h) hz
      · exact absurd (Or.inr h) hz

/-! ### The play loop: run lemmas -/

/-- A full uninterrupted non-looping run of the play loop from frame index
idx renders each remaining frame once, clipped to the fixed maxLines bound,
and re-samples the terminal size exactly once per iteration. -/
theorem playAux_run (sizes : ℕ → ℕ × ℕ) (frames : List String) (maxLines : ℕ) :
    ∀ fuel iter idx s, idx < frames.length → frames.length - idx ≤ fuel →
      playAux sizes frames false maxLines none fuel iter idx s
        = some (⟨(sizes (s.nextSample + (frames.length - idx) - 1)).1,
                 (sizes (s.nextSample + (frames.length - idx) - 1)).2,
                 s.nextSample + (frames.length - idx)⟩,
                (frames.drop idx).map (fun f => (splitLines f).take maxLines),
                false) := by
  intro fuel
  induction fuel with
  | zero => intro iter idx s hidx hfuel; omega
  | succ f ih =>
    intro iter idx s hidx hfuel
    have hgetD : frames.getD idx "" = frames[idx] := List.getD_eq_getElem frames "" hidx
    have hdrop : frames.drop idx = frames[idx] :: frames.drop (idx + 1) :=
      List.drop_eq_getElem_cons hidx
    simp only [playAux, render_frame, hgetD]
    rw [if_neg (by simp : ¬ (none : Option ℕ) = some iter)]
    by_cases hend : frames.length ≤ idx + 1
    · rw [if_pos hend]
      have h1 : frames.length - idx = 1 := by omega
      have hnil : frames.drop (idx + 1) = [] := List.drop_eq_nil_of_le hend
      rw [hdrop, hnil, h1]
      simp [sampleSize]
    · rw [if_neg hend]
      rw [ih (iter + 1) (idx + 1) (sampleSize sizes s) (by omega) (by omega)]
      simp only [sampleSize]
      rw [hdrop]
      simp only [List.map_cons]
      have e1 : s.nextSample + 1 + (frames.length - (idx + 1)) - 1
          = s.nextSample + (frames.length - idx) - 1 := by omega
      have e2 : s.nextSample + 1 + (frames.length - (idx + 1))
          = s.nextSample + (frames.length - idx) := by omega
      rw [e1, e2]

/-- A run of the play loop hit by the KeyboardInterrupt during the sleep of
iteration k renders exactly the frames of iterations up to k and stops,
returning through the absorbing handler. -/
theorem playAux_interrupted (sizes : ℕ → ℕ × ℕ) (frames : List String)
    (loopFlag : Bool) (maxLines k : ℕ) :
    ∀ fuel iter idx s, iter ≤ k → idx + (k - iter) < frames.length →
      k - iter < fuel →
      playAux sizes frames loopFlag maxLines (some k) fuel iter idx s
        = some (⟨(sizes (s.nextSample + (k - iter))).1,
                 (sizes (s.nextSample + (k - iter))).2,
                 s.nextSample + (k - iter) + 1⟩,
                ((frames.drop idx).take (k - iter + 1)).map
                  (fun f => (splitLines f).take maxLines),
                true) := by
  intro fuel
  induction fuel with
  | zero => intro iter idx s h1 h2 h3; omega
  | succ f ih =>
    intro iter idx s hik hlen hfuel
    have hidx : idx < frames.length := by omega
    have hgetD : frames.getD idx "" = frames[idx] := List.getD_eq_getElem frames "" hidx
    have hdrop : frames.drop idx = frames[idx] :: frames.drop (idx + 1) :=
      List.drop_eq_getElem_cons hidx
    simp only [playAux, render_frame, hgetD]
    by_cases hit : iter = k
    · rw [if_pos (by rw [hit])]
      subst hit
      rw [hdrop]
      simp only [Nat.sub_self, Nat.add_zero, List.take_succ_cons, List.take_zero,
        List.map_cons, List.map_nil, sampleSize]
    · rw [if_neg (by simp only [Option.some.injEq]; omega)]
      have hend : ¬ frames.length ≤ idx + 1 := by omega
      rw [if_neg hend]
      rw [ih (iter + 1) (idx + 1) (sampleSize sizes s) (by omega) (by omega) (by omega)]
      simp only [sampleSize]
      rw [hdrop, List.take_succ_cons]
      simp only [List.map_cons]
      have e1 : s.nextSample + 1 + (k - (iter + 1)) = s.nextSample + (k - iter) := by omega
      have e2 : k - (iter + 1) + 1 = k - iter := by omega
      rw [e1, e2]

/-! ### C5 -/

/-- C5 counterexample: with a terminal reporting 24 rows at loop entry and
5 rows at every later sample, the single 30-line frame is clipped to
24 - 1 = 23 lines, not to the 5 - 1 = 4 lines of the size sampled in the
same iteration: the clip bound is the stale value computed before the
loop, refuting the claim. -/
theorem C5_counterexample :
    play sizesC5 ⟨80, 24, 0⟩ [frame30] false none 1
      = some (⟨80, 5, 2⟩, [List.replicate 23 "x"], false) ∧
    (sizesC5 1).2 - 1 = 4 ∧
    ¬ ((List.replicate 23 "x").length ≤ (sizesC5 1).2 - 1) := by decide

/-- C5 amended: every iteration of play does re-sample the terminal size
(the final state has consumed one sample per frame plus the loop-entry
sample), but the clip bound applied to every frame is terminalRows - 1 for
the terminal rows sampled once at loop entry; the per-iteration samples do
not affect the bound. -/
theorem C5_clip_bound_from_entry_sample (sizes : ℕ → ℕ × ℕ) (w h : ℕ)
    (frames : List String) (fuel : ℕ)
    (hne : frames ≠ []) (hfuel : frames.length ≤ fuel) :
    play sizes ⟨w, h, 0⟩ frames false none fuel
      = some (⟨(sizes frames.length).1, (sizes frames.length).2,
               frames.length + 1⟩,
              frames.map (fun f => (splitLines f).take ((sizes 0).2 - 1)),
              false) := by
  have hlen : 0 < frames.length := List.length_pos.mpr hne
  rw [play, if_neg (by omega)]
  rw [playAux_run sizes frames _ fuel 0 0 _ hlen (by omega)]
  simp only [sampleSize, List.drop_zero]
  norm_num [Nat.add_comm]

/-- Witness for C5_clip_bound_from_entry_sample on a two-frame sequence. -/
theorem C5_clip_bound_from_entry_sample_witness :
    play sizesC5 ⟨80, 24, 0⟩ ["a\nb", "c"] false none 2
      = some (⟨(sizesC5 (["a\nb", "c"] : List String).length).1,
              (sizesC5 (["a\nb", "c"] : List String).length).2,
              (["a\nb", "c"] : List String).length + 1⟩,
              (["a\nb", "c"] : List String).map
                (fun f => (splitLines f).take ((sizesC5 0).2 - 1)),
              false) :=
  C5_clip_bound_from_entry_sample sizesC5 80 24 ["a\nb", "c"] 2 (by decide) (by decide)

/-! ### C6 -/

/-- C6 counterexample: when the direct shutil query succeeds with columns
100 and lines 50, a successful stty probe of (rows 10, cols 30) is still
consulted and overrides it: the final size is (30, 10), not (100, 50),
refuting the claim that the external-command layer cannot override a
successful direct query. -/
theorem C6_counterexample :
    update_terminal_size (some (100, 50)) (some (10, 30)) none 80 24 = (30, 10) ∧
    update_terminal_size (some (100, 50)) (some (10, 30)) none 80 24 ≠ (100, 50) := by
  decide

/-- C6 amended: the three layers are attempted in order, but the external
command layer is always consulted and, when it succeeds, overrides the
direct query: the result is the stty size when stty parses, else the tput
size when tput parses, else the shutil result, else the previously stored
(80x24-initialized) fields. -/
theorem C6_layering (cols lins r c w h : ℕ) (tput : Option (ℕ × ℕ)) :
    update_terminal_size (some (cols, lins)) (some (r, c)) tput w h = (c, r) ∧
    update_terminal_size none (some (r, c)) tput w h = (c, r) ∧
    update_terminal_size (some (cols, lins)) none (some (r, c)) w h = (c, r) ∧
    update_terminal_size (some (cols, lins)) none none w h = (cols, lins) ∧
    update_terminal_size none none none w h = (w, h) :=
  ⟨rfl, rfl, rfl, rfl, rfl⟩

/-! ### C7 -/

/-- C7: a KeyboardInterrupt delivered during the sleep of iteration k
(k < number of frames) is absorbed: the loop renders exactly the frames of
iterations 0..k (each clipped to the entry bound), never renders any later
frame, and play returns a value normally through the handler instead of
re-raising. -/
theorem C7_interrupt_absorbed (sizes : ℕ → ℕ × ℕ) (w h : ℕ)
    (frames : List String) (loopFlag : Bool) (k fuel : ℕ)
    (hk : k < frames.length) (hfuel : k < fuel) :
    play sizes ⟨w, h, 0⟩ frames loopFlag (some k) fuel
      = some (⟨(sizes (k + 1)).1, (sizes (k + 1)).2, k + 2⟩,
              (frames.take (k + 1)).map
                (fun f => (splitLines f).take ((sizes 0).2 - 1)),
              true) := by
  rw [play, if_neg (by omega)]
  rw [playAux_interrupted sizes frames loopFlag _ k fuel 0 0 _ (by omega) (by omega) (by omega)]
  simp only [sampleSize, List.drop_zero, Nat.sub_zero]
  norm_num [Nat.add_comm]
  omega

/-- Witness for C7_interrupt_absorbed: interrupt during the sleep of
iteration 1 of a three-frame playback. -/
theorem C7_interrupt_absorbed_witness :
    play sizes8024 ⟨80, 24, 0⟩ ["a", "b", "c"] false (some 1) 3
      = some (⟨(sizes8024 (1 + 1)).1, (sizes8024 (1 + 1)).2, 1 + 2⟩,
              ((["a", "b", "c"] : List String).take (1 + 1)).map
                (fun f => (splitLines f).take ((sizes8024 0).2 - 1)),
              true) :=
  C7_interrupt_absorbed sizes8024 80 24 ["a", "b", "c"] false 1 3 (by decide) (by decide)

/-! ### C8 -/

/-- C8: for every ramp of length at least 1 and luminance values in
[0, 255], the computed glyph index is in [0, rampLength), and the index is
monotonically non-decreasing in the luminance value. -/
theorem C8_index_bounds_and_monotone (charset : String) (v v1 v2 : ℚ)
    (hN : 1 ≤ charset.length) (hv0 : 0 ≤ v) (hv255 : v ≤ 255)
    (hw0 : 0 ≤ v1) (hw : v1 ≤ v2) (hw255 : v2 ≤ 255) :
    (0 ≤ pixel_to_char_index charset v ∧
      pixel_to_char_index charset v < (charset.length : ℤ)) ∧
    pixel_to_char_index charset v1 ≤ pixel_to_char_index charset v2 := by
  have hN' : (1 : ℤ) ≤ (charset.length : ℤ) := by exact_mod_cast hN
  have key : ∀ u : ℚ, 0 ≤ u →
      pyInt (u / 256 * (charset.length : ℚ))
        = Int.floor (u / 256 * (charset.length : ℚ)) := fun u hu =>
    pyInt_of_nonneg _ (mul_nonneg (div_nonneg hu (by norm_num)) (Nat.cast_nonneg _))
  refine ⟨⟨?_, ?_⟩, ?_⟩
  · rw [pixel_to_char_index, key v hv0]
    refine le_min ?_ (by omega)
    exact Int.floor_nonneg.mpr
      (mul_nonneg (div_nonneg hv0 (by norm_num)) (Nat.cast_nonneg _))
  · rw [pixel_to_char_index]
    calc min (pyInt (v / 256 * (charset.length : ℚ))) ((charset.length : ℤ) - 1)
        ≤ (charset.length : ℤ) - 1 := min_le_right _ _
      _ < (charset.length : ℤ) := by omega
  · rw [pixel_to_char_index, pixel_to_char_index, key v1 hw0, key v2 (le_trans hw0 hw)]
    refine min_le_min ?_ le_rfl
    refine Int.floor_le_floor ?_
    have h256 : v1 / 256 ≤ v2 / 256 := by
      exact div_le_div_of_nonneg_right hw (by norm_num)
    exact mul_le_mul_of_nonneg_right h256 (Nat.cast_nonneg _)

/-- Witness for C8_index_bounds_and_monotone on the default ramp. -/
theorem C8_index_bounds_and_monotone_witness :
    (0 ≤ pixel_to_char_index DEFAULT_CHARSET 128 ∧
      pixel_to_char_index DEFAULT_CHARSET 128 < (DEFAULT_CHARSET.length : ℤ)) ∧
    pixel_to_char_index DEFAULT_CHARSET 3 ≤ pixel_to_char_index DEFAULT_CHARSET 200 :=
  C8_index_bounds_and_monotone DEFAULT_CHARSET 128 3 200 (by decide)
    (by norm_num) (by norm_num) (by norm_num) (by norm_num) (by norm_num)

/-! ### C9 -/

/-- The glyph index of the default ramp at gray value 0 is 0. -/
theorem default_index_at_0 : pixel_to_char_index DEFAULT_CHARSET 0 = 0 := by
  rw [pixel_to_char_index,
    show DEFAULT_CHARSET.length = 10 from rfl,
    pyInt_nonneg_eq _ 0 (by norm_num) (by norm_num) (by norm_num)]
  decide

/-- The glyph index of the default ramp at gray value 255 is 9. -/
theorem default_index_at_255 : pixel_to_char_index DEFAULT_CHARSET 255 = 9 := by
  rw [pixel_to_char_index,
    show DEFAULT_CHARSET.length = 10 from rfl,
    pyInt_nonneg_eq _ 9 (by norm_num) (by norm_num) (by norm_num)]
  decide

/-- The glyph index of the default ramp at gray value 128 is 5. -/
theorem default_index_at_128 : pixel_to_char_index DEFAULT_CHARSET 128 = 5 := by
  rw [pixel_to_char_index,
    show DEFAULT_CHARSET.length = 10 from rfl,
    pyInt_nonneg_eq _ 5 (by norm_num) (by norm_num) (by norm_num)]
  decide

/-- C9 counterexample: on the default ramp " .:-=+*#%@" at contrast 1.0,
pixel value 128 maps to index 5 as the claimed formula says, but the
character at index 5 is the plus sign, not the asterisk claimed (the
asterisk sits at index 6). -/
theorem C9_counterexample :
    pixel_to_char_index DEFAULT_CHARSET 128 = 5 ∧
    pixel_to_char DEFAULT_CHARSET 128 = '+' ∧
    pixel_to_char DEFAULT_CHARSET 128 ≠ '*' := by
  refine ⟨default_index_at_128, ?_, ?_⟩ <;>
    rw [pixel_to_char, default_index_at_128] <;> decide

/-- C9 amended: for every ramp and adjusted luminance v in [0, 255] the
glyph index equals min(floor(v / 256 * rampLength), rampLength - 1); on the
default ramp with contrast 1.0, pixel value 0 maps to the space character,
255 to the at sign, and 128 to index 5, whose character is the plus sign
(not the asterisk, which is at index 6). -/
theorem C9_index_formula (charset : String) (v : ℚ)
    (hv0 : 0 ≤ v) (hv255 : v ≤ 255) :
    pixel_to_char_index charset v
      = min (Int.floor (v / 256 * (charset.length : ℚ))) ((charset.length : ℤ) - 1) ∧
    pixel_to_char DEFAULT_CHARSET (applyContrast 1 0) = ' ' ∧
    pixel_to_char DEFAULT_CHARSET (applyContrast 1 255) = '@' ∧
    pixel_to_char_index DEFAULT_CHARSET (applyContrast 1 128) = 5 ∧
    pixel_to_char DEFAULT_CHARSET (applyContrast 1 128) = '+' := by
  have hid : ∀ p : ℕ, applyContrast 1 p = (p : ℚ) := fun p => if_pos rfl
  have h0 : applyContrast 1 0 = (0 : ℚ) := by rw [hid 0]; norm_num
  have h255 : applyContrast 1 255 = (255 : ℚ) := by rw [hid 255]; norm_num
  have h128 : applyContrast 1 128 = (128 : ℚ) := by rw [hid 128]; norm_num
  refine ⟨?_, ?_, ?_, ?_, ?_⟩
  · rw [pixel_to_char_index,
      pyInt_of_nonneg _ (mul_nonneg (div_nonneg hv0 (by norm_num)) (Nat.cast_nonneg _))]
  · rw [h0, pixel_to_char, default_index_at_0]; decide
  · rw [h255, pixel_to_char, default_index_at_255]; decide
  · rw [h128]; exact default_index_at_128
  · rw [h128, pixel_to_char, default_index_at_128]; decide

/-- Witness for C9_index_formula at gray value 77 on the default ramp. -/
theorem C9_index_formula_witness :
    pixel_to_char_index DEFAULT_CHARSET 77
      = min (Int.floor ((77 : ℚ) / 256 * (DEFAULT_CHARSET.length : ℚ)))
          ((DEFAULT_CHARSET.length : ℤ) - 1) ∧
    pixel_to_char DEFAULT_CHARSET (applyContrast 1 0) = ' ' ∧
    pixel_to_char DEFAULT_CHARSET (applyContrast 1 255) = '@' ∧
    pixel_to_char_index DEFAULT_CHARSET (applyContrast 1 128) = 5 ∧
    pixel_to_char DEFAULT_CHARSET (applyContrast 1 128) = '+' :=
  C9_index_formula DEFAULT_CHARSET 77 (by norm_num) (by norm_num)

/-! ### C10 -/

/-- C10: constructing the converter with no charset or the empty charset
string substitutes the default ramp, and the stored ramp is non-empty for
every possible construction argument. -/
theorem C10_charset_default_nonempty :
    initCharset none = DEFAULT_CHARSET ∧
    initCharset (some "") = DEFAULT_CHARSET ∧
    ∀ c : Option String, 1 ≤ (initCharset c).length := by
  refine ⟨rfl, by decide, ?_⟩
  intro c
  match c with
  | none => decide
  | some s =>
    by_cases h : s = ""
    · rw [initCharset, if_pos h]; decide
    · rw [initCharset, if_neg h]
      cases s with
      | mk data =>
        simp only [String.length]
        exact List.length_pos.mpr (fun hd => h (by simp [hd]))

end VideoToAscii
